import Mathlib

/-!
# Verification of the PROJECT-D content-management backend

Shallow embedding of the persistence and validation logic of the
Express/MongoDB server (`src/server.js`) and its two variants
(`src/unnamed/part_000`, `src/unnamed/part_001`).  Collections and the
local JSON file are modelled as Lean lists of records; the MongoDB
operations `updateOne(filter, {$set}, {upsert:true})`, `deleteOne` and
`find(query).sort(...)` are modelled as replace-first-match-or-append,
remove-first-match and filter-then-stable-sort on those lists.
JavaScript numbers arriving in request bodies are modelled by `JsNum`
(rational value, NaN or an infinity) so that `Number.isFinite` and
`Number.isInteger` checks are expressible.
-/

namespace ProjectD

/-- A JavaScript number as it appears in a parsed JSON request body:
either a finite (decimal, hence rational) value, NaN, or an infinity. -/
inductive JsNum where
  | nan : JsNum
  | posInf : JsNum
  | negInf : JsNum
  | num : ℚ → JsNum
deriving DecidableEq

/-- `Number.isFinite`. -/
def JsNum.isFiniteNum : JsNum → Bool
  | .num _ => true
  | _ => false

/-- `Number.isInteger`. -/
def JsNum.isIntegerNum : JsNum → Bool
  | .num q => q.den == 1
  | _ => false

/-- The rational value of a finite `JsNum` (0 for the non-finite ones;
only ever used after a finiteness check). -/
def JsNum.val : JsNum → ℚ
  | .num q => q
  | _ => 0

/-- JavaScript `s.slice(0, n)`: the first `n` characters of `s`. -/
def jsSlice (s : String) (n : Nat) : String := ⟨s.data.take n⟩

/-- JavaScript `s.toLowerCase()` (character by character). -/
def jsToLower (s : String) : String := ⟨s.data.map Char.toLower⟩

/-- JavaScript `s.trim()`: strip leading and trailing whitespace. -/
def jsTrim (s : String) : String :=
  ⟨((s.data.dropWhile Char.isWhitespace).reverse.dropWhile Char.isWhitespace).reverse⟩

/-- JavaScript `s.split(sep)` for a one-character separator. -/
def splitOnChar (sep : Char) : List Char → List (List Char)
  | [] => [[]]
  | a :: as =>
    match splitOnChar sep as with
    | [] => [[]]
    | g :: gs => if a == sep then [] :: g :: gs else (a :: g) :: gs

/-- Lexicographic strict order on character lists, comparing code points
(the order used by `localeCompare` on ASCII data and by MongoDB string
sorting). -/
def listStrLt : List Char → List Char → Bool
  | [], [] => false
  | [], _ :: _ => true
  | _ :: _, [] => false
  | a :: as, b :: bs =>
    if a.toNat < b.toNat then true
    else if a == b then listStrLt as bs
    else false

/-- String comparison `s < t` over code points. -/
def strLt (s t : String) : Bool := listStrLt s.data t.data

/-- String comparison `s ≤ t` over code points. -/
def strLe (s t : String) : Bool := strLt s t || s == t

/-- JavaScript string-or-absent option: `o.getD d` models `x || d` for a
possibly-absent string field, treating the empty string as falsy. -/
def strOr (o : Option String) (d : String) : String :=
  match o with
  | some s => if s.isEmpty then d else s
  | none => d

/-- `updateOne({key}, {$set: doc}, {upsert: true})` on a collection, and
equally the local-JSON `findIndex`-replace-else-`push`: replace the first
record matching `p` by `r`, or append `r` when none matches. -/
def upsertFirst {α : Type} (p : α → Bool) (r : α) : List α → List α
  | [] => [r]
  | x :: xs => if p x then r :: xs else x :: upsertFirst p r xs

/-- `deleteOne({key})`: remove the first record matching `p`. -/
def removeFirst {α : Type} (p : α → Bool) : List α → List α
  | [] => []
  | x :: xs => if p x then xs else x :: removeFirst p xs

/-! ## Projects (`src/server.js` lines 155-218, `src/unnamed/part_001` lines 57-94) -/

structure Project where
  id : String
  title : String
  description : String
  image : String
  type : String
deriving DecidableEq

/-- `const allowed = new Set(['flagship','existing','upcoming'])`. -/
def projectAllowedTypes : List String := ["flagship", "existing", "upcoming"]

/-- `allowed.has(type)` for the (possibly absent) `type` query value. -/
def projectTypeOk (t : Option String) : Bool :=
  match t with
  | some s => projectAllowedTypes.contains s
  | none => false

/-- Mongo `sort({title: 1})` ordering on projects. -/
def projTitleLe (a b : Project) : Prop := strLe a.title b.title = true

instance : DecidableRel projTitleLe := fun a b =>
  inferInstanceAs (Decidable (strLe a.title b.title = true))

/-- `dbGetProjects(type)` from `src/server.js`: with a Mongo collection,
`find(allowed.has(type) ? {type} : {}).sort({title: 1})`; with the local
JSON file, the same filter without sorting.  `mongoOn` says whether
`ensureMongo()` returned a collection; `store` is the relevant backend's
record list. -/
def dbGetProjects (mongoOn : Bool) (store : List Project) (t : Option String) :
    List Project :=
  let filtered :=
    if projectTypeOk t then store.filter (fun p => p.type == t.getD "") else store
  if mongoOn then filtered.insertionSort projTitleLe else filtered

/-- `GET /api/projects` from `src/unnamed/part_001` lines 57-63:
`if (type === 'flagship' || type === 'upcoming') items = items.filter(...)`. -/
def part001GetProjects (store : List Project) (t : Option String) : List Project :=
  if t == some "flagship" || t == some "upcoming" then
    store.filter (fun p => p.type == t.getD "")
  else store

/-- `dbCreateProject` from `src/server.js` lines 169-188.  `genId` models
the generated `` `${type}-${Date.now()}` `` used when `id` is falsy.  The
Mongo branch is an `updateOne(..., {upsert: true})` keyed on `id`; the
local branch replaces at `findIndex` or pushes.  Returns the created
record and the new store. -/
def dbCreateProject (mongoOn : Bool) (store : List Project) (idIn : Option String)
    (title description image ty genId : String) : Project × List Project :=
  let newId := strOr idIn genId
  let item : Project := ⟨newId, title, description, image, ty⟩
  if mongoOn then
    (item, upsertFirst (fun p => p.id == newId) item store)
  else
    let st :=
      match store.findIdx? (fun p => p.id == newId) with
      | some i => store.set i item
      | none => store ++ [item]
    (item, st)

/-- `POST /api/projects` from `src/unnamed/part_001` lines 65-73: after the
required-field check it unconditionally does `db.projects.push(newItem)`.
Returns the HTTP status and the new store. -/
def part001PostProjects (store : List Project) (idIn : Option String)
    (title description image ty genId : String) : Nat × List Project :=
  if title.isEmpty || description.isEmpty || image.isEmpty || ty.isEmpty then
    (400, store)
  else
    let item : Project := ⟨strOr idIn genId, title, description, image, ty⟩
    (201, store ++ [item])

/-- `dbDeleteProject(id)` from `src/server.js` lines 206-218: Mongo
`deleteOne({id})` (remove first match) vs. local `filter(p => p.id !== id)`
(remove all matches); returns whether something was removed. -/
def dbDeleteProject (mongoOn : Bool) (store : List Project) (idv : String) :
    Bool × List Project :=
  if mongoOn then
    let st := removeFirst (fun p => p.id == idv) store
    (st.length < store.length, st)
  else
    let st := store.filter (fun p => p.id != idv)
    (st.length < store.length, st)

/-- `DELETE /api/projects/:id` from `src/server.js` lines 604-613:
404 when `dbDeleteProject` removed nothing, 204 otherwise. -/
def deleteProjectEndpoint (mongoOn : Bool) (store : List Project) (idv : String) :
    Nat × List Project :=
  let r := dbDeleteProject mongoOn store idv
  if r.1 then (204, r.2) else (404, r.2)

/-- `DELETE /api/projects/:id` from `src/unnamed/part_001` lines 86-94:
filters, answers 404 without writing when the length is unchanged. -/
def part001DeleteProjects (store : List Project) (idv : String) :
    Nat × List Project :=
  let arr := store.filter (fun p => p.id != idv)
  if arr.length == store.length then (404, store) else (204, arr)

/-! ## Bulletins (`src/server.js` lines 398-443, `src/unnamed/part_000` lines 405-427) -/

structure Bulletin where
  id : String
  lang : String
  title : String
  pdf : String
  date : String
  createdAt : String
deriving DecidableEq

/-- The shape of an `archives` item: `({id, title, date, pdf, lang})`,
i.e. a bulletin stripped of `createdAt`. -/
structure BulletinPub where
  id : String
  title : String
  date : String
  pdf : String
  lang : String
deriving DecidableEq

def bulletinStrip (b : Bulletin) : BulletinPub :=
  ⟨b.id, b.title, b.date, b.pdf, b.lang⟩

/-- The effective query language: `(req.query.lang || 'ta').toLowerCase()`. -/
def effQueryLang (q : Option String) : String := jsToLower (strOr q "ta")

/-- The effective stored language in the local-JSON fallback:
`(b.lang || 'ta').toLowerCase()`. -/
def effLang (b : Bulletin) : String := jsToLower (strOr (some b.lang) "ta")

/-- Mongo `sort({date: -1, createdAt: -1})` as a ≤-style relation
(`a` may come before `b`): date descending, ties by `createdAt`
descending. -/
def mongoBulLeB (a b : Bulletin) : Bool :=
  if a.date == b.date then strLe b.createdAt a.createdAt else strLt b.date a.date

def mongoBulLe (a b : Bulletin) : Prop := mongoBulLeB a b = true

instance : DecidableRel mongoBulLe := fun a b =>
  inferInstanceAs (Decidable (mongoBulLeB a b = true))

/-- The local-JSON comparator from `src/server.js` lines 419-424 as a
≤-style relation: dates are truncated to 10 characters and compared
descending, ties broken by `createdAt` descending. -/
def localBulLeB (a b : Bulletin) : Bool :=
  if jsSlice a.date 10 == jsSlice b.date 10 then strLe b.createdAt a.createdAt
  else strLt (jsSlice b.date 10) (jsSlice a.date 10)

def localBulLe (a b : Bulletin) : Prop := localBulLeB a b = true

instance : DecidableRel localBulLe := fun a b =>
  inferInstanceAs (Decidable (localBulLeB a b = true))

/-- The hardcoded per-language default bulletin served when both backends
are empty (`defaults[lang] || defaults.ta`). -/
def bulletinDefault (lang : String) : Bulletin :=
  let pdfUrl := "https://www.w3.org/WAI/ER/tests/xhtml/testfiles/resources/pdf/dummy.pdf"
  if lang = "ta" then ⟨"ta-1", "ta", "தமிழ் பதிப்பு", pdfUrl, "2025-08-01", ""⟩
  else if lang = "en" then ⟨"en-1", "en", "English Edition", pdfUrl, "2025-08-01", ""⟩
  else if lang = "kn" then ⟨"kn-1", "kn", "Kannada Edition", pdfUrl, "2025-08-01", ""⟩
  else if lang = "ml" then ⟨"ml-1", "ml", "Malayalam Edition", pdfUrl, "2025-08-01", ""⟩
  else if lang = "te" then ⟨"te-1", "te", "Telugu Edition", pdfUrl, "2025-08-01", ""⟩
  else ⟨"ta-1", "ta", "தமிழ் பதிப்பு", pdfUrl, "2025-08-01", ""⟩

/-- `GET /api/bulletins` from `src/server.js` lines 404-443.  `ms` is the
Mongo collection (used when `mongoOn`), `ls` the local JSON file's
`bulletins` array.  The Mongo path filters by raw `lang` equality and
sorts by `{date: -1, createdAt: -1}`; when it yields nothing the local
path filters by `(b.lang || 'ta').toLowerCase() === lang` and sorts with
the explicit comparator; when that too is empty, the hardcoded default is
served.  Returns `(latest, archives)`. -/
def getBulletins (mongoOn : Bool) (ms ls : List Bulletin) (q : Option String) :
    Option Bulletin × List BulletinPub :=
  let lang := effQueryLang q
  let mongoItems :=
    if mongoOn then (ms.filter (fun b => b.lang == lang)).insertionSort mongoBulLe
    else []
  match mongoItems with
  | b :: rest => (some b, rest.map bulletinStrip)
  | [] =>
    let allLocal :=
      (ls.filter (fun b => effLang b == lang)).insertionSort localBulLe
    match allLocal with
    | b :: rest => (some b, rest.map bulletinStrip)
    | [] => (some (bulletinDefault lang), [])

/-! ## Power stones (`src/server.js` lines 367-382, `src/unnamed/part_000` lines 362-377) -/

structure Stone where
  id : String
  slot : ℚ
  src : String
  title : String
deriving DecidableEq

/-- `Number.isInteger(slot) && slot >= 1 && slot <= 6`
(negation of `!Number.isInteger(slot) || slot < 1 || slot > 6`). -/
def slotOk (s : JsNum) : Bool :=
  s.isIntegerNum && decide (1 ≤ s.val) && decide (s.val ≤ 6)

/-- `` `ps-${slot}` `` for a validated integral slot. -/
def slotTag (q : ℚ) : String := "ps-" ++ toString q.num

/-- `const newId = id || ` `` `ps-${slot}` ``. -/
def stoneIdFor (idIn : Option String) (q : ℚ) : String := strOr idIn (slotTag q)

/-- `POST /api/power-stones` from `src/server.js` lines 367-382: validates
the slot range and `src`, then `updateOne({slot}, {$set: ...},
{upsert: true})` keyed on the slot.  `src = none` models a missing or
non-string `src` field.  Returns the HTTP status and the new store. -/
def postPowerStone (mongoOn : Bool) (store : List Stone) (idIn : Option String)
    (slotIn : JsNum) (src : Option String) (title : Option String) :
    Nat × List Stone :=
  if !slotOk slotIn then (400, store)
  else
    match src with
    | none => (400, store)
    | some s =>
      if (jsTrim s).isEmpty then (400, store)
      else if !mongoOn then (503, store)
      else
        let q := slotIn.val
        let stone : Stone := ⟨stoneIdFor idIn q, q, jsTrim s, (title.getD "")⟩
        (201, upsertFirst (fun st => st.slot == q) stone store)

/-! ## Leaderboard (`src/unnamed/part_000` lines 503-522) -/

structure LbEntry where
  id : String
  game : String
  nickname : String
  score : ℚ
  createdAt : String
deriving DecidableEq

/-- `const G = new Set(['snake','whack','flight','memory'])`. -/
def gameSet : List String := ["snake", "whack", "flight", "memory"]

/-- `Number.isFinite(sc) && sc >= 0 && sc <= 1000000`
(negation of `!Number.isFinite(sc) || sc < 0 || sc > 1000000`). -/
def scoreOk (s : JsNum) : Bool :=
  s.isFiniteNum && decide (0 ≤ s.val) && decide (s.val ≤ 1000000)

/-- `POST /api/leaderboard` from `src/unnamed/part_000` lines 503-522.
`game` and `nickname` are the request fields after `toString()`; `score`
is the request's score after the `Number(...)` coercion.  `genId` models
the generated `` `lb-${Date.now()}-...` `` id and `nowIso` the
`new Date().toISOString()` timestamp.  Returns the HTTP status and the
new store. -/
def postLeaderboard (game nickname : String) (score : JsNum) (mongoOn : Bool)
    (store : List LbEntry) (genId nowIso : String) : Nat × List LbEntry :=
  let g := jsToLower (jsTrim game)
  let name := jsSlice (jsTrim nickname) 24
  if !gameSet.contains g then (400, store)
  else if name.isEmpty || name.length < 2 then (400, store)
  else if !scoreOk score then (400, store)
  else if !mongoOn then (503, store)
  else (201, store ++ [⟨genId, g, name, score.val, nowIso⟩])

/-! ## PDF proxy (`src/server.js` lines 652-709, `src/unnamed/part_000` lines 674-731) -/

/-- The scheme and hostname of a URL parsed by `new URL(...)`. -/
structure UrlParts where
  protocol : String
  hostname : String
deriving DecidableEq

/-- One upstream HTTPS response.  `location` models the `Location` header
together with the outcome of resolving it with `new URL(location, u)`:
`none` means no header, `some none` an unparseable value, `some (some u)`
a successfully resolved redirect target.  `bodyLen` is the total number
of streamed body bytes. -/
structure UpResp where
  status : Nat
  location : Option (Option UrlParts)
  contentType : String
  contentLength : Nat
  bodyLen : Nat

/-- `(process.env.PDF_PROXY_ALLOWLIST || 'www.w3.org')
.split(',').map(s => s.trim().toLowerCase()).filter(Boolean)`. -/
def parseAllowList (env : Option String) : List String :=
  (((splitOnChar ',' (strOr env "www.w3.org").data).map
    (fun l => jsToLower (jsTrim ⟨l⟩))).filter (fun s => !s.isEmpty))

def MAX_PDF : Nat := 25 * 1024 * 1024

/-- Is `t` a prefix of `s` (over characters)? -/
def listPrefixOf : List Char → List Char → Bool
  | [], _ => true
  | _ :: _, [] => false
  | a :: as, b :: bs => a == b && listPrefixOf as bs

/-- Does `t` occur somewhere inside `s` (over characters)? -/
def listInfixOf (t s : List Char) : Bool :=
  match s with
  | [] => listPrefixOf t []
  | _ :: rest => listPrefixOf t s || listInfixOf t rest

/-- JavaScript `s.includes(t)`. -/
def strIncludes (s t : String) : Bool := listInfixOf t.data s.data

/-- The `handle(upstream)` callback: 415 unless the content type contains
`application/pdf`, 413 when a nonzero `content-length` exceeds the cap or
the streamed body overruns it, 200 otherwise. -/
def handleUpstream (r : UpResp) : Nat :=
  if !(strIncludes (jsToLower r.contentType) "application/pdf") then 415
  else if r.contentLength != 0 && decide (MAX_PDF < r.contentLength) then 413
  else if MAX_PDF < r.bodyLen then 413
  else 200

/-- `r.statusCode && r.statusCode >= 300 && r.statusCode < 400 &&
r.headers.location`. -/
def isRedirect (r : UpResp) : Bool :=
  r.status != 0 && decide (300 ≤ r.status) && decide (r.status < 400) &&
    r.location.isSome

/-- `GET /api/pdf-proxy` from `src/server.js` lines 652-709.  `rawUrl` is
the `url` query value, `parsed` the outcome of `new URL(rawUrl)` (`none`
when the constructor throws), `up1`/`up2` the upstream responses to the
first and (if issued) second `https.get`.  Returns the HTTP status and
the number of upstream fetches issued. -/
def pdfProxy (env : Option String) (rawUrl : String) (parsed : Option UrlParts)
    (up1 up2 : UpResp) : Nat × Nat :=
  if rawUrl.isEmpty then (400, 0)
  else
    match parsed with
    | none => (400, 0)
    | some u =>
      if u.protocol != "https:" then (400, 0)
      else if !(parseAllowList env).contains (jsToLower u.hostname) then (403, 0)
      else if isRedirect up1 then
        match up1.location with
        | some (some _) => (handleUpstream up2, 2)
        | some none => (502, 1)
        | none => (502, 1)
      else (handleUpstream up1, 1)

/-! ## Helper lemmas -/

theorem upsertFirst_filter {α : Type} (p : α → Bool) (r : α) (hr : p r = true) :
    ∀ l : List α, l.countP p ≤ 1 → (upsertFirst p r l).filter p = [r] := by
  intro l
  induction l with
  | nil => intro _; simp [upsertFirst, hr]
  | cons x xs ih =>
    intro h
    by_cases hx : p x = true
    · have hxs : xs.countP p = 0 := by
        rw [List.countP_cons, if_pos hx] at h; omega
      have hfil : xs.filter p = [] :=
        List.filter_eq_nil_iff.mpr (List.countP_eq_zero.mp hxs)
      simp [upsertFirst, hx, List.filter_cons, hr, hfil]
    · have hx' : p x = false := by simpa using hx
      have h' : xs.countP p ≤ 1 := by
        rw [List.countP_cons, if_neg (by simp [hx'] : ¬ p x = true)] at h
        omega
      simp [upsertFirst, hx', List.filter_cons, ih h']

theorem upsertFirst_countP {α : Type} (p : α → Bool) (r : α) (hr : p r = true)
    (l : List α) (h : l.countP p ≤ 1) : (upsertFirst p r l).countP p = 1 := by
  rw [List.countP_eq_length_filter, upsertFirst_filter p r hr l h]
  rfl

/-- The local-JSON create (`findIndex`, replace at index, else push) has
the same effect as `upsertFirst`. -/
theorem findIdx_set_eq_upsertFirst {α : Type} (p : α → Bool) (r : α) :
    ∀ l : List α,
      (match l.findIdx? p with
        | some i => l.set i r
        | none => l ++ [r]) = upsertFirst p r l := by
  intro l
  induction l with
  | nil => simp [upsertFirst]
  | cons x xs ih =>
    by_cases hx : p x = true
    · simp [List.findIdx?_cons, hx, upsertFirst]
    · have hx' : p x = false := by simpa using hx
      rw [List.findIdx?_cons]
      simp only [hx', if_false, List.findIdx?_succ]
      cases hfi : xs.findIdx? p with
      | none =>
        rw [hfi] at ih
        simp only [Option.map_none, upsertFirst, hx', if_false]
        simpa using ih
      | some i =>
        rw [hfi] at ih
        simp only [Option.map_some, List.set_cons_succ, upsertFirst, hx', if_false]
        simpa using ih

/-- Both backends of `dbCreateProject` implement the same
replace-first-or-append upsert keyed on the id. -/
theorem dbCreateProject_store (mongoOn : Bool) (store : List Project)
    (idIn : Option String) (title description image ty genId : String) :
    (dbCreateProject mongoOn store idIn title description image ty genId).2 =
      upsertFirst (fun p => p.id == strOr idIn genId)
        ⟨strOr idIn genId, title, description, image, ty⟩ store := by
  cases mongoOn with
  | true => rfl
  | false =>
    exact findIdx_set_eq_upsertFirst (fun p => p.id == strOr idIn genId)
      ⟨strOr idIn genId, title, description, image, ty⟩ store

theorem removeFirst_of_none {α : Type} (p : α → Bool)
    (l : List α) (h : ∀ x ∈ l, p x = false) : removeFirst p l = l := by
  induction l with
  | nil => rfl
  | cons x xs ih =>
    have hx := h x (List.mem_cons_self x xs)
    simp [removeFirst, hx, ih (fun y hy => h y (List.mem_cons_of_mem x hy))]

theorem strOr_some_of_ne (s d : String) (h : s ≠ "") : strOr (some s) d = s := by
  have : s.isEmpty = false := by
    cases hs : s.isEmpty
    · rfl
    · exact absurd ((String.isEmpty_iff s).mp hs) h
  simp [strOr, this]

theorem jsSlice_length (s : String) (n : Nat) :
    (jsSlice s n).length = min n s.length := by
  show (s.data.take n).length = min n s.data.length
  exact List.length_take ..

theorem isEmpty_false_of_pos (s : String) (h : 0 < s.length) : s.isEmpty = false := by
  cases hs : s.isEmpty
  · rfl
  · have he : s = "" := (String.isEmpty_iff s).mp hs
    subst he
    simp at h

/-! ## Claims -/

/-- C1, counterexample: in the `src/unnamed/part_001` variant,
`POST /api/projects` pushes unconditionally, so two successful creates
with the same id `"p1"` leave two stored records with that id — the
create operation of that variant is not idempotent by natural key. -/
theorem create_twice_part001_duplicates :
    ((part001PostProjects
        (part001PostProjects [] (some "p1") "t" "d" "i" "flagship" "g").2
        (some "p1") "t2" "d2" "i2" "flagship" "g").2.countP
      (fun q => q.id == "p1")) = 2 := by decide

/-- C1 (amended): every create keyed by a natural key in `src/server.js`
is the replace-first-match-or-append operation `upsertFirst`; applying it
twice with the same key to a store holding at most one record with that
key leaves exactly the second call's record for that key.  In particular
`dbCreateProject` (both the Mongo and the local-JSON backend) called
twice with the same id leaves exactly one project with that id, carrying
the second call's fields.  (The `part_001` variant's `POST /api/projects`
appends unconditionally and is exempt.) -/
theorem upsert_by_natural_key_idempotent {α : Type} (p : α → Bool) (r1 r2 : α)
    (l : List α) (h1 : p r1 = true) (h2 : p r2 = true) (hl : l.countP p ≤ 1) :
    ((upsertFirst p r2 (upsertFirst p r1 l)).filter p = [r2]) ∧
    (∀ (m : Bool) (store : List Project)
      (idv t1 d1 i1 ty1 g1 t2 d2 i2 ty2 g2 : String),
      idv ≠ "" →
      store.countP (fun q => q.id == idv) ≤ 1 →
      ((dbCreateProject m
          (dbCreateProject m store (some idv) t1 d1 i1 ty1 g1).2
          (some idv) t2 d2 i2 ty2 g2).2.filter (fun q => q.id == idv)) =
        [⟨idv, t2, d2, i2, ty2⟩]) := by
  constructor
  · have hc1 : (upsertFirst p r1 l).countP p = 1 := upsertFirst_countP p r1 h1 l hl
    exact upsertFirst_filter p r2 h2 _ (le_of_eq hc1)
  · intro m store idv t1 d1 i1 ty1 g1 t2 d2 i2 ty2 g2 hid hst
    have hkey : strOr (some idv) g1 = idv := strOr_some_of_ne idv g1 hid
    have hkey2 : strOr (some idv) g2 = idv := strOr_some_of_ne idv g2 hid
    rw [dbCreateProject_store, dbCreateProject_store, hkey, hkey2]
    have hp1 : ((⟨idv, t1, d1, i1, ty1⟩ : Project).id == idv) = true := by simp
    have hp2 : ((⟨idv, t2, d2, i2, ty2⟩ : Project).id == idv) = true := by simp
    have hc1 :
        (upsertFirst (fun q : Project => q.id == idv) ⟨idv, t1, d1, i1, ty1⟩
          store).countP (fun q => q.id == idv) = 1 :=
      upsertFirst_countP (fun q : Project => q.id == idv)
        ⟨idv, t1, d1, i1, ty1⟩ hp1 store hst
    exact upsertFirst_filter (fun q : Project => q.id == idv)
      ⟨idv, t2, d2, i2, ty2⟩ hp2 _ (le_of_eq hc1)

/-- C1 witness: the amended theorem evaluated at id `"p1"` on the empty
store, for both the generic operation and `dbCreateProject` with the
local-JSON backend. -/
theorem upsert_by_natural_key_idempotent_witness :
    ((upsertFirst (fun q : Project => q.id == "p1")
        ⟨"p1", "t2", "d2", "i2", "flagship"⟩
        (upsertFirst (fun q : Project => q.id == "p1")
          ⟨"p1", "t1", "d1", "i1", "flagship"⟩ [])).filter
      (fun q => q.id == "p1") = [⟨"p1", "t2", "d2", "i2", "flagship"⟩]) ∧
    ((dbCreateProject false
        (dbCreateProject false [] (some "p1") "t1" "d1" "i1" "flagship" "g1").2
        (some "p1") "t2" "d2" "i2" "flagship" "g2").2.filter
      (fun q => q.id == "p1") = [⟨"p1", "t2", "d2", "i2", "flagship"⟩]) := by
  have h := upsert_by_natural_key_idempotent (fun q : Project => q.id == "p1")
    ⟨"p1", "t1", "d1", "i1", "flagship"⟩ ⟨"p1", "t2", "d2", "i2", "flagship"⟩ []
    (by decide) (by decide) (by decide)
  exact ⟨h.1, h.2 false [] "p1" "t1" "d1" "i1" "flagship" "g1"
    "t2" "d2" "i2" "flagship" "g2" (by decide) (by decide)⟩

/-- C2, counterexample: in the `src/unnamed/part_001` variant of
`GET /api/projects`, the recognized value `existing` is NOT applied as a
filter: over a store holding one flagship and one existing project, the
query `type=existing` returns the full unfiltered set, including the
flagship record. -/
theorem projects_existing_filter_ignored_part001 :
    part001GetProjects
        [⟨"p1", "A", "d", "i", "flagship"⟩, ⟨"p2", "B", "d", "i", "existing"⟩]
        (some "existing") =
      [⟨"p1", "A", "d", "i", "flagship"⟩, ⟨"p2", "B", "d", "i", "existing"⟩] ∧
    "existing" ∈ projectAllowedTypes ∧
    (⟨"p1", "A", "d", "i", "flagship"⟩ : Project).type ≠ "existing" := by
  refine ⟨rfl, by decide, by decide⟩

/-- C2 (amended): in `src/server.js`, `dbGetProjects` applies the type
filter exactly when the value is one of `{flagship, existing, upcoming}`
and otherwise returns every stored record, on both backends; the
`part_001` variant applies the filter only for `flagship` and `upcoming`
and treats `existing` (like any unrecognized value) as "no filter". -/
theorem projects_type_filter (mongoOn : Bool) (store : List Project)
    (t : Option String) :
    (projectTypeOk t = true →
      ∀ q : Project, q ∈ dbGetProjects mongoOn store t ↔
        q ∈ store ∧ q.type = t.getD "") ∧
    (projectTypeOk t = false →
      ∀ q : Project, q ∈ dbGetProjects mongoOn store t ↔ q ∈ store) ∧
    (part001GetProjects store (some "existing") = store ∧
      part001GetProjects store (some "bogus") = store ∧
      ∀ q : Project, q ∈ part001GetProjects store (some "flagship") ↔
        q ∈ store ∧ q.type = "flagship") := by
  refine ⟨?_, ?_, rfl, rfl, ?_⟩
  · intro h q
    cases mongoOn <;>
      simp [dbGetProjects, h, List.mem_insertionSort, List.mem_filter]
  · intro h q
    cases mongoOn <;>
      simp [dbGetProjects, h, List.mem_insertionSort]
  · intro q
    have hf : part001GetProjects store (some "flagship") =
        store.filter (fun p => p.type == "flagship") := rfl
    rw [hf]
    simp [List.mem_filter]

/-- C2 witness: the filter behaviour of `dbGetProjects` evaluated for
`type=existing` (recognized, filter applied) and `type=bogus`
(unrecognized, full set) over a two-record store. -/
theorem projects_type_filter_witness :
    ((⟨"p2", "B", "d", "i", "existing"⟩ : Project) ∈
        dbGetProjects true
          [⟨"p1", "A", "d", "i", "flagship"⟩, ⟨"p2", "B", "d", "i", "existing"⟩]
          (some "existing") ↔
      (⟨"p2", "B", "d", "i", "existing"⟩ : Project) ∈
          [⟨"p1", "A", "d", "i", "flagship"⟩,
            ⟨"p2", "B", "d", "i", "existing"⟩] ∧
        (⟨"p2", "B", "d", "i", "existing"⟩ : Project).type = "existing") ∧
    ((⟨"p1", "A", "d", "i", "flagship"⟩ : Project) ∈
        dbGetProjects false
          [⟨"p1", "A", "d", "i", "flagship"⟩, ⟨"p2", "B", "d", "i", "existing"⟩]
          (some "bogus") ↔
      (⟨"p1", "A", "d", "i", "flagship"⟩ : Project) ∈
        [⟨"p1", "A", "d", "i", "flagship"⟩, ⟨"p2", "B", "d", "i", "existing"⟩]) := by
  exact ⟨(projects_type_filter true
      [⟨"p1", "A", "d", "i", "flagship"⟩, ⟨"p2", "B", "d", "i", "existing"⟩]
      (some "existing")).1 (by decide) ⟨"p2", "B", "d", "i", "existing"⟩,
    ((projects_type_filter false
      [⟨"p1", "A", "d", "i", "flagship"⟩, ⟨"p2", "B", "d", "i", "existing"⟩]
      (some "bogus")).2).1 (by decide) ⟨"p1", "A", "d", "i", "flagship"⟩⟩

/-- C3, counterexample: `GET /api/bulletins` does not treat an
unrecognized `lang` as "no filter".  Over a store containing exactly one
(English) bulletin, `lang=bogus` returns neither that bulletin as
`latest` nor any archives — the built-in default is served instead of
the full set. -/
theorem bulletins_unrecognized_lang_not_all :
    (getBulletins false []
        [⟨"en-9", "en", "T", "p.pdf", "2025-08-01", "c"⟩] (some "bogus")).1 ≠
      some ⟨"en-9", "en", "T", "p.pdf", "2025-08-01", "c"⟩ ∧
    (getBulletins false []
        [⟨"en-9", "en", "T", "p.pdf", "2025-08-01", "c"⟩] (some "bogus")).2 = [] := by
  refine ⟨by decide, by decide⟩

/-- C3 (amended): `GET /api/bulletins` always applies the language filter
by equality with the lowercased query value (defaulting to `ta`),
whether or not that value is recognized; when no stored bulletin matches
— in particular for any unrecognized value — the endpoint serves the
hardcoded per-language default rather than the full set. -/
theorem bulletins_lang_filter_always (mongoOn : Bool) (ms ls : List Bulletin)
    (q : Option String)
    (h1 : ∀ b ∈ ms, (b.lang == effQueryLang q) = false)
    (h2 : ∀ b ∈ ls, (effLang b == effQueryLang q) = false) :
    getBulletins mongoOn ms ls q =
      (some (bulletinDefault (effQueryLang q)), []) := by
  have hm : ms.filter (fun b => b.lang == effQueryLang q) = [] :=
    List.filter_eq_nil_iff.mpr (fun a ha => by simp [h1 a ha])
  have hl : ls.filter (fun b => effLang b == effQueryLang q) = [] :=
    List.filter_eq_nil_iff.mpr (fun a ha => by simp [h2 a ha])
  cases mongoOn <;> simp [getBulletins, hm, hl, List.insertionSort]

/-- C3 witness: with one stored English bulletin and the unrecognized
query `lang=bogus`, the response is the default, not the stored data. -/
theorem bulletins_lang_filter_always_witness :
    getBulletins false []
        [⟨"en-9", "en", "T", "p.pdf", "2025-08-01", "c"⟩] (some "bogus") =
      (some (bulletinDefault (effQueryLang (some "bogus"))), []) :=
  bulletins_lang_filter_always false []
    [⟨"en-9", "en", "T", "p.pdf", "2025-08-01", "c"⟩] (some "bogus")
    (by decide) (by decide)

/-- C4: for `GET /api/bulletins`, on either backend, the first item of
the per-language set sorted by date descending then creation time
descending is returned as `latest` and the remaining items, stripped to
their public fields, as `archives`. -/
theorem bulletins_latest_archive_split (mongoOn : Bool) (ms ls : List Bulletin)
    (q : Option String) (b : Bulletin) (rest : List Bulletin) :
    (mongoOn = true →
      (ms.filter (fun x => x.lang == effQueryLang q)).insertionSort mongoBulLe =
        b :: rest →
      getBulletins mongoOn ms ls q = (some b, rest.map bulletinStrip)) ∧
    (mongoOn = false →
      (ls.filter (fun x => effLang x == effQueryLang q)).insertionSort localBulLe =
        b :: rest →
      getBulletins mongoOn ms ls q = (some b, rest.map bulletinStrip)) := by
  constructor
  · rintro rfl h
    simp [getBulletins, h]
  · rintro rfl h
    simp [getBulletins, h, List.insertionSort]

/-- C4 witness: with two stored English bulletins dated `2025-08-01` and
`2025-07-01`, `lang=en` yields the August record as `latest` and exactly
the stripped July record as `archives`. -/
theorem bulletins_latest_archive_split_witness :
    ((([⟨"en-3", "en", "Jul", "p.pdf", "2025-07-01", "2025-07-02T00:00:00.000Z"⟩,
        ⟨"en-2", "en", "Aug", "p.pdf", "2025-08-01", "2025-08-02T00:00:00.000Z"⟩] :
          List Bulletin).filter
        (fun x => effLang x == effQueryLang (some "en"))).insertionSort localBulLe =
      ⟨"en-2", "en", "Aug", "p.pdf", "2025-08-01", "2025-08-02T00:00:00.000Z"⟩ ::
        [⟨"en-3", "en", "Jul", "p.pdf", "2025-07-01", "2025-07-02T00:00:00.000Z"⟩]) ∧
    getBulletins false []
        [⟨"en-3", "en", "Jul", "p.pdf", "2025-07-01", "2025-07-02T00:00:00.000Z"⟩,
          ⟨"en-2", "en", "Aug", "p.pdf", "2025-08-01", "2025-08-02T00:00:00.000Z"⟩]
        (some "en") =
      (some ⟨"en-2", "en", "Aug", "p.pdf", "2025-08-01", "2025-08-02T00:00:00.000Z"⟩,
        [bulletinStrip
          ⟨"en-3", "en", "Jul", "p.pdf", "2025-07-01", "2025-07-02T00:00:00.000Z"⟩]) :=
  ⟨by decide,
    (bulletins_latest_archive_split false []
      [⟨"en-3", "en", "Jul", "p.pdf", "2025-07-01", "2025-07-02T00:00:00.000Z"⟩,
        ⟨"en-2", "en", "Aug", "p.pdf", "2025-08-01", "2025-08-02T00:00:00.000Z"⟩]
      (some "en")
      ⟨"en-2", "en", "Aug", "p.pdf", "2025-08-01", "2025-08-02T00:00:00.000Z"⟩
      [⟨"en-3", "en", "Jul", "p.pdf", "2025-07-01", "2025-07-02T00:00:00.000Z"⟩]).2
      rfl (by decide)⟩

/-- C5: `POST /api/leaderboard` accepts a submission (status 201,
appending exactly one entry) precisely when the coerced score is a
finite number in the closed interval `[0, 1000000]`; a score of
`1000001` is always rejected with 400 and stores nothing. -/
theorem leaderboard_score_range (game nickname : String) (s : JsNum)
    (store : List LbEntry) (gid now : String)
    (hg : gameSet.contains (jsToLower (jsTrim game)) = true)
    (hn : 2 ≤ (jsTrim nickname).length) :
    ((postLeaderboard game nickname s true store gid now).1 = 201 ↔
      ∃ v : ℚ, s = JsNum.num v ∧ 0 ≤ v ∧ v ≤ 1000000) ∧
    (∀ (g2 n2 : String) (m2 : Bool) (st2 : List LbEntry) (gid2 now2 : String),
      postLeaderboard g2 n2 (JsNum.num 1000001) m2 st2 gid2 now2 = (400, st2)) ∧
    (scoreOk s = true →
      postLeaderboard game nickname s true store gid now =
        (201, store ++ [⟨gid, jsToLower (jsTrim game),
          jsSlice (jsTrim nickname) 24, s.val, now⟩])) := by
  have hlen : (jsSlice (jsTrim nickname) 24).length =
      min 24 (jsTrim nickname).length := jsSlice_length ..
  have h2 : 2 ≤ (jsSlice (jsTrim nickname) 24).length := by rw [hlen]; omega
  have hie : (jsSlice (jsTrim nickname) 24).isEmpty = false :=
    isEmpty_false_of_pos _ (by omega)
  have hgm : jsToLower (jsTrim game) ∈ gameSet := by simpa using hg
  refine ⟨?_, ?_, ?_⟩
  · cases s with
    | num v =>
      by_cases hv : (0 ≤ v ∧ v ≤ 1000000)
      · have hs : scoreOk (JsNum.num v) = true := by
          simp [scoreOk, JsNum.isFiniteNum, JsNum.val, hv.1, hv.2]
        simp [postLeaderboard, hg, hgm, hie, h2, hs, Nat.not_lt.mpr h2]
        exact hv
      · have hs : scoreOk (JsNum.num v) = false := by
          simp [scoreOk, JsNum.isFiniteNum, JsNum.val]
          intro h0
          rcases (not_and_or.mp hv) with h | h
          · exact absurd h0 h
          · exact lt_of_not_le h
        simp [postLeaderboard, hg, hgm, hie, h2, hs, Nat.not_lt.mpr h2]
        intro h0
        rcases (not_and_or.mp hv) with h | h
        · exact absurd h0 h
        · exact lt_of_not_le h
    | nan => simp [postLeaderboard, hg, hgm, hie, h2, Nat.not_lt.mpr h2, scoreOk,
        JsNum.isFiniteNum]
    | posInf => simp [postLeaderboard, hg, hgm, hie, h2, Nat.not_lt.mpr h2, scoreOk,
        JsNum.isFiniteNum]
    | negInf => simp [postLeaderboard, hg, hgm, hie, h2, Nat.not_lt.mpr h2, scoreOk,
        JsNum.isFiniteNum]
  · intro g2 n2 m2 st2 gid2 now2
    have hs : scoreOk (JsNum.num 1000001) = false := by decide
    simp only [postLeaderboard, hs]
    split
    · rfl
    · split
      · rfl
      · simp
  · intro hs
    simp [postLeaderboard, hg, hgm, hie, h2, hs, Nat.not_lt.mpr h2]

/-- C5 witness: a score of exactly 1000000 is accepted and stored, a
score of 1000001 is rejected leaving the store empty. -/
theorem leaderboard_score_range_witness :
    postLeaderboard "snake" "ab" (JsNum.num 1000000) true [] "lb-1" "t" =
      (201, [⟨"lb-1", "snake", "ab", 1000000, "t"⟩]) ∧
    postLeaderboard "snake" "ab" (JsNum.num 1000001) true [] "lb-1" "t" =
      (400, []) := by
  have h := leaderboard_score_range "snake" "ab" (JsNum.num 1000000) [] "lb-1" "t"
    (by decide) (by decide)
  refine ⟨?_, h.2.1 "snake" "ab" true [] "lb-1" "t"⟩
  rw [h.2.2 (by decide)]
  decide

/-- C10: `POST /api/leaderboard` truncates rather than rejects long
nicknames: when the trimmed nickname exceeds 24 characters the
submission is accepted and exactly its first 24 characters are stored;
a submission is rejected on account of the nickname only when the
trimmed value is shorter than 2 characters. -/
theorem leaderboard_nickname_truncation (game nickname : String) (s : JsNum)
    (store : List LbEntry) (gid now : String)
    (hg : gameSet.contains (jsToLower (jsTrim game)) = true)
    (hs : scoreOk s = true) :
    (24 < (jsTrim nickname).length →
      postLeaderboard game nickname s true store gid now =
        (201, store ++ [⟨gid, jsToLower (jsTrim game),
            jsSlice (jsTrim nickname) 24, s.val, now⟩]) ∧
        (jsSlice (jsTrim nickname) 24).length = 24) ∧
    ((jsTrim nickname).length < 2 →
      postLeaderboard game nickname s true store gid now = (400, store)) ∧
    (2 ≤ (jsTrim nickname).length →
      (postLeaderboard game nickname s true store gid now).1 = 201) := by
  have hlen : (jsSlice (jsTrim nickname) 24).length =
      min 24 (jsTrim nickname).length := jsSlice_length ..
  have hgm : jsToLower (jsTrim game) ∈ gameSet := by simpa using hg
  refine ⟨?_, ?_, ?_⟩
  · intro hlong
    have h24 : (jsSlice (jsTrim nickname) 24).length = 24 := by rw [hlen]; omega
    have hie : (jsSlice (jsTrim nickname) 24).isEmpty = false :=
      isEmpty_false_of_pos _ (by omega)
    refine ⟨?_, h24⟩
    simp [postLeaderboard, hg, hgm, hie, hs, h24]
  · intro hshort
    have hlt : (jsSlice (jsTrim nickname) 24).length < 2 := by rw [hlen]; omega
    simp [postLeaderboard, hg, hgm, hlt]
  · intro hok
    have h2 : 2 ≤ (jsSlice (jsTrim nickname) 24).length := by rw [hlen]; omega
    have hie : (jsSlice (jsTrim nickname) 24).isEmpty = false :=
      isEmpty_false_of_pos _ (by omega)
    simp [postLeaderboard, hg, hgm, hie, hs, Nat.not_lt.mpr h2]

/-- C10 witness: a 26-character nickname is accepted with its first 24
characters stored; a 1-character nickname is rejected. -/
theorem leaderboard_nickname_truncation_witness :
    (postLeaderboard "snake" "abcdefghijklmnopqrstuvwxyz" (JsNum.num 5) true []
        "g" "t" =
      (201, [] ++ [⟨"g", jsToLower (jsTrim "snake"),
        jsSlice (jsTrim "abcdefghijklmnopqrstuvwxyz") 24,
        (JsNum.num 5).val, "t"⟩]) ∧
      (jsSlice (jsTrim "abcdefghijklmnopqrstuvwxyz") 24).length = 24) ∧
    postLeaderboard "snake" "a" (JsNum.num 5) true [] "g" "t" = (400, []) :=
  ⟨(leaderboard_nickname_truncation "snake" "abcdefghijklmnopqrstuvwxyz"
      (JsNum.num 5) [] "g" "t" (by decide) (by decide)).1 (by decide),
    (leaderboard_nickname_truncation "snake" "a"
      (JsNum.num 5) [] "g" "t" (by decide) (by decide)).2.1 (by decide)⟩

/-- C6: `POST /api/power-stones` answers 400 (storing nothing) whenever
the slot fails the integer-in-`[1,6]` validation — in particular for
slot 7 — and posting the same valid slot twice upserts: afterwards the
store holds exactly one record for that slot, carrying the second
call's `src`. -/
theorem power_stone_slot_upsert (store : List Stone)
    (idIn1 idIn2 : Option String) (q : ℚ) (src1 src2 : String)
    (t1 t2 : Option String)
    (hq : slotOk (JsNum.num q) = true)
    (hs1 : (jsTrim src1).isEmpty = false)
    (hs2 : (jsTrim src2).isEmpty = false)
    (hstore : store.countP (fun st => st.slot == q) ≤ 1) :
    (∀ (s : JsNum) (idIn : Option String) (src t : Option String)
        (m : Bool) (st : List Stone),
      slotOk s = false → postPowerStone m st idIn s src t = (400, st)) ∧
    ((postPowerStone true
        (postPowerStone true store idIn1 (JsNum.num q) (some src1) t1).2
        idIn2 (JsNum.num q) (some src2) t2).2.filter
      (fun st => st.slot == q)) =
      [⟨stoneIdFor idIn2 q, q, jsTrim src2, t2.getD ""⟩] := by
  constructor
  · intro s idIn src t m st h
    simp [postPowerStone, h]
  · have e1 : (postPowerStone true store idIn1 (JsNum.num q) (some src1) t1).2 =
        upsertFirst (fun st => st.slot == q)
          ⟨stoneIdFor idIn1 q, q, jsTrim src1, t1.getD ""⟩ store := by
      simp [postPowerStone, hq, hs1, JsNum.val]
    have e2 : (postPowerStone true
        (upsertFirst (fun st => st.slot == q)
          ⟨stoneIdFor idIn1 q, q, jsTrim src1, t1.getD ""⟩ store)
        idIn2 (JsNum.num q) (some src2) t2).2 =
        upsertFirst (fun st => st.slot == q)
          ⟨stoneIdFor idIn2 q, q, jsTrim src2, t2.getD ""⟩
          (upsertFirst (fun st => st.slot == q)
            ⟨stoneIdFor idIn1 q, q, jsTrim src1, t1.getD ""⟩ store) := by
      simp [postPowerStone, hq, hs2, JsNum.val]
    rw [e1, e2]
    have hp1 : ((⟨stoneIdFor idIn1 q, q, jsTrim src1, t1.getD ""⟩ : Stone).slot ==
        q) = true := by simp
    have hp2 : ((⟨stoneIdFor idIn2 q, q, jsTrim src2, t2.getD ""⟩ : Stone).slot ==
        q) = true := by simp
    have hc1 : (upsertFirst (fun st => st.slot == q)
        ⟨stoneIdFor idIn1 q, q, jsTrim src1, t1.getD ""⟩ store).countP
          (fun st => st.slot == q) = 1 :=
      upsertFirst_countP (fun st : Stone => st.slot == q)
        ⟨stoneIdFor idIn1 q, q, jsTrim src1, t1.getD ""⟩ hp1 store hstore
    exact upsertFirst_filter (fun st : Stone => st.slot == q)
      ⟨stoneIdFor idIn2 q, q, jsTrim src2, t2.getD ""⟩ hp2 _ (le_of_eq hc1)

/-- C6 witness: slot 7 is rejected with 400 on the empty store, and
posting slot 1 twice with `src` values `u1` then `u2` leaves exactly
one slot-1 record carrying `u2`. -/
theorem power_stone_slot_upsert_witness :
    postPowerStone true [] none (JsNum.num 7) (some "x") none = (400, []) ∧
    ((postPowerStone true
        (postPowerStone true [] none (JsNum.num 1) (some "u1") none).2
        none (JsNum.num 1) (some "u2") none).2.filter
      (fun st => st.slot == 1)) = [⟨"ps-1", 1, "u2", ""⟩] := by
  have h := power_stone_slot_upsert [] none none 1 "u1" "u2" none none
    (by decide) (by decide) (by decide) (by decide)
  refine ⟨h.1 (JsNum.num 7) none (some "x") none true [] (by decide), ?_⟩
  rw [h.2]
  decide

/-- C7: `DELETE /api/projects/:id` for an id matching no stored record
returns 404 and leaves the store exactly as it was, on both backends of
`src/server.js` and in the `part_001` variant. -/
theorem delete_missing_project_404 (mongoOn : Bool) (store : List Project)
    (idv : String) (h : ∀ p ∈ store, p.id ≠ idv) :
    deleteProjectEndpoint mongoOn store idv = (404, store) ∧
    part001DeleteProjects store idv = (404, store) := by
  have hb : ∀ p ∈ store, ((fun p : Project => p.id == idv) p) = false :=
    fun p hp => by simp [h p hp]
  have hrm : removeFirst (fun p => p.id == idv) store = store :=
    removeFirst_of_none _ _ hb
  have hft : store.filter (fun p => p.id != idv) = store :=
    List.filter_eq_self.mpr (fun p hp => by simp [h p hp])
  constructor
  · cases mongoOn <;>
      simp [deleteProjectEndpoint, dbDeleteProject, hrm, hft]
  · simp [part001DeleteProjects, hft]

/-- C7 witness: deleting the absent id `zz` from a one-project store
answers 404 with the store unchanged. -/
theorem delete_missing_project_404_witness :
    deleteProjectEndpoint true [⟨"p1", "A", "d", "i", "flagship"⟩] "zz" =
      (404, [⟨"p1", "A", "d", "i", "flagship"⟩]) ∧
    part001DeleteProjects [⟨"p1", "A", "d", "i", "flagship"⟩] "zz" =
      (404, [⟨"p1", "A", "d", "i", "flagship"⟩]) :=
  delete_missing_project_404 true [⟨"p1", "A", "d", "i", "flagship"⟩] "zz"
    (by decide)

/-- C8: `GET /api/pdf-proxy` with a well-formed https URL whose hostname
is not on the allow-list answers 403 and issues zero upstream fetches,
whatever the upstream responses would have been. -/
theorem pdf_proxy_disallowed_host_403 (env : Option String) (rawUrl : String)
    (u : UrlParts) (up1 up2 : UpResp)
    (hraw : rawUrl.isEmpty = false)
    (hp : u.protocol = "https:")
    (hh : (parseAllowList env).contains (jsToLower u.hostname) = false) :
    pdfProxy env rawUrl (some u) up1 up2 = (403, 0) := by
  have hh2 : jsToLower u.hostname ∉ parseAllowList env := by simpa using hh
  simp [pdfProxy, hraw, hp, hh, hh2]

/-- C8 witness: `https://evil.example/file.pdf` against the default
allow-list yields 403 and no upstream request. -/
theorem pdf_proxy_disallowed_host_403_witness :
    pdfProxy none "https://evil.example/file.pdf"
        (some ⟨"https:", "evil.example"⟩)
        ⟨200, none, "application/pdf", 0, 5⟩
        ⟨200, none, "application/pdf", 0, 5⟩ = (403, 0) :=
  pdf_proxy_disallowed_host_403 none "https://evil.example/file.pdf"
    ⟨"https:", "evil.example"⟩
    ⟨200, none, "application/pdf", 0, 5⟩
    ⟨200, none, "application/pdf", 0, 5⟩
    (by decide) (by decide) (by decide)

/-- C9: for every request and every pair of upstream responses —
including a second response that is itself a redirect — the PDF proxy
issues at most two upstream fetches: it never follows more than one
redirect hop. -/
theorem pdf_proxy_at_most_two_fetches (env : Option String) (rawUrl : String)
    (parsed : Option UrlParts) (up1 up2 : UpResp) :
    (pdfProxy env rawUrl parsed up1 up2).2 ≤ 2 := by
  unfold pdfProxy
  repeat' split
  all_goals simp

end ProjectD
